import Mathlib

/-!
Shallow embedding of the QuizChain backend room/match coordinator
(`src/backend/server.js`: QuestionService, RoomService, payout helpers;
`src/backend/handlers/roomHandlers.js`: socket handlers and game loop),
together with theorems settling the specification claims.

JavaScript numbers are modelled as `JsNum` (a rational or NaN); caller
payload fields that may be `undefined` or non-numeric strings are modelled
by `EntryFeeVal`, which records the value's `Number()` coercion and its
`parseFloat` result. Objects used as string-keyed maps are modelled as
insertion-ordered association lists (`lookupA` / `setA`), matching the JS
semantics that assigning an existing key keeps its position and a new key
is appended. Sparse JS arrays (per-player answer arrays indexed by question
index) are modelled as `List (Option _)` with `setIdx` / `getIdx`.
-/

namespace QuizChain

/-- A JavaScript number: a rational value or NaN. -/
inductive JsNum where
  | num (q : Rat)
  | nan
deriving DecidableEq, Repr

/-- JS `<` on numbers: any comparison involving NaN is false. -/
def jsLt : JsNum → JsNum → Bool
  | .num x, .num y => decide (x < y)
  | _, _ => false

/-- JS `*` on numbers: NaN propagates. -/
def jsMul : JsNum → JsNum → JsNum
  | .num x, .num y => .num (x * y)
  | _, _ => .nan

/-- The value supplied for `roomConfig.entryFee`: a number, a string
(carrying the results of its `Number()` coercion and its `parseFloat`),
or `undefined` (the field absent from the payload). -/
inductive EntryFeeVal where
  | num (q : Rat)
  | str (toNum : JsNum) (parsed : JsNum)
  | undef
deriving DecidableEq, Repr

/-- JS `ToNumber` coercion, as applied by the relational operators `<`/`>`:
`undefined` coerces to NaN; a string coerces to its numeric parse. -/
def EntryFeeVal.toNumber : EntryFeeVal → JsNum
  | .num q => .num q
  | .str t _ => t
  | .undef => .nan

/-- JS `parseFloat`: identity on numbers (via their string form), the
prefix-parse on strings, NaN on `undefined`. -/
def EntryFeeVal.toParseFloat : EntryFeeVal → JsNum
  | .num q => .num q
  | .str _ p => p
  | .undef => .nan

/-- Room lifecycle status (`waiting`, `starting`, `in-progress`, `completed`). -/
inductive Status where
  | waiting
  | starting
  | inProgress
  | completed
deriving DecidableEq, Repr

/-- The room's host record: `{walletAddress, username, socketId}`. -/
structure HostInfo where
  walletAddress : String
  username : String
  socketId : Option String
deriving DecidableEq, Repr

/-- The stored room config (`room.config` after `createRoom`). -/
structure RoomConfig where
  entryFee : JsNum
  asset : String
  maxPlayers : Int
  topic : String
  password : Option String
  isPublic : Bool
deriving DecidableEq, Repr

/-- A participant entry: `{walletAddress, username, socketId, hasPaid}`. -/
structure Participant where
  walletAddress : String
  username : String
  socketId : Option String
  hasPaid : Bool
deriving DecidableEq, Repr

/-- A formatted question as produced by `QuestionService.formatQuestion`. -/
structure Question where
  id : Nat
  question : String
  options : List String
  correctAnswer : Int
  topic : String
  timeLimit : Nat
  points : Int
  explanation : Option String
deriving DecidableEq, Repr

/-- A stored answer record
`{answer, isCorrect, timeRemaining, score, timestamp}`. -/
structure AnswerRecord where
  answer : Int
  isCorrect : Bool
  timeRemaining : Int
  score : Int
  timestamp : Nat
deriving DecidableEq, Repr

/-- JS `String.prototype.toUpperCase`, modelled per character. -/
def toUpperCase (s : String) : String := ⟨s.data.map Char.toUpper⟩

/-- JS `String.prototype.trim`: strip leading and trailing whitespace. -/
def trimString (s : String) : String :=
  ⟨((s.data.dropWhile Char.isWhitespace).reverse.dropWhile
      Char.isWhitespace).reverse⟩

/-- JS `x || fallback` for an optional string: `undefined` and the empty
string are falsy. -/
def orElseStr (x : Option String) (fallback : String) : String :=
  match x with
  | none => fallback
  | some s => if s = "" then fallback else s

/-- Association-list lookup, first binding wins (JS object property read). -/
def lookupA {α : Type} : List (String × α) → String → Option α
  | [], _ => none
  | (k', v) :: rest, k => if k' = k then some v else lookupA rest k

/-- Association-list write (JS object property assignment): an existing key
keeps its position, a new key is appended at the end. -/
def setA {α : Type} : List (String × α) → String → α → List (String × α)
  | [], k, v => [(k, v)]
  | (k', v') :: rest, k, v =>
      if k' = k then (k', v) :: rest else (k', v') :: setA rest k v

/-- Write into a sparse JS array at index `i`, padding holes with `none`. -/
def setIdx {α : Type} : List (Option α) → Nat → α → List (Option α)
  | [], 0, v => [some v]
  | [], Nat.succ n, v => none :: setIdx [] n v
  | _ :: rest, 0, v => some v :: rest
  | x :: rest, Nat.succ n, v => x :: setIdx rest n v

/-- Read a sparse JS array at index `i`: `none` for a hole or out of range
(JS `arr[i] === undefined`). -/
def getIdx {α : Type} (l : List (Option α)) (i : Nat) : Option α :=
  l.getD i none

/-- Per-game mutable state (`room.gameData`). -/
structure GameData where
  questions : List Question
  currentQuestionIndex : Nat
  startedAt : Nat
  playerAnswers : List (String × List (Option AnswerRecord))
  playerScores : List (String × Int)
  questionStartTime : Option Nat
  endedAt : Option Nat
deriving DecidableEq, Repr

/-- The room aggregate. `yellowSession` holds the external settlement
session id when one was opened at game start. -/
structure Room where
  id : String
  code : String
  host : HostInfo
  config : RoomConfig
  participants : List Participant
  status : Status
  createdAt : Nat
  gameData : Option GameData
  yellowSession : Option String
deriving DecidableEq, Repr

/-- A raw question as returned by the Aptitude API:
`{question, options, answer, explanation, topic}`. -/
structure RawQuestion where
  question : String
  options : List String
  answer : String
  topic : Option String
  explanation : Option String
deriving DecidableEq, Repr

/-- `QuestionService.formatQuestion`: find the correct option's index
(`findIndex`, −1 when absent), defaulting to 0 when not found; attach the
fixed 30-second time limit and 10-point value. -/
def formatQuestion (rawQuestion : RawQuestion) (index : Nat) : Question :=
  let options := rawQuestion.options
  let correctAnswerIndex : Int :=
    match List.findIdx? (fun opt => opt = rawQuestion.answer) options with
    | some i => (i : Int)
    | none => -1
  { id := index + 1
    question := rawQuestion.question
    options := options
    correctAnswer := if correctAnswerIndex ≠ -1 then correctAnswerIndex else 0
    topic := rawQuestion.topic.getD "Unknown"
    timeLimit := 30
    points := 10
    explanation := rawQuestion.explanation }

/-- `hostData` as passed to `RoomService.createRoom`. -/
structure HostData where
  walletAddress : String
  username : Option String
deriving DecidableEq, Repr

/-- The caller-supplied `roomConfig` payload for room creation. -/
structure CreateConfigInput where
  entryFee : EntryFeeVal
  asset : String
  maxPlayers : Int
  topic : String
  password : Option String
  isPublic : Bool
deriving DecidableEq, Repr

/-- The fixed asset whitelist from `RoomService.createRoom`. -/
def validAssets : List String := ["USDC", "USDT", "DAI", "USDC.e", "WETH", "WBTC"]

/-- The fixed topic whitelist from `RoomService.createRoom`. -/
def validTopics : List String :=
  ["Random", "All", "Age", "ProfitAndLoss", "SpeedTimeDistance",
   "MixtureAndAlligation", "PipesAndCisterns", "SimpleInterest",
   "Calendars", "PermutationAndCombination"]

/-- `RoomService.createRoom`, with the generated `roomId`/`roomCode` passed
in explicitly (the collision-checked generation loop is modelled by the
freshness hypotheses of the theorems that use this). The entry-fee bound
check uses JS `<`/`>` (NaN compares false); the stored fee is
`parseFloat(entryFee)`; an empty password is stored as `null`
(`password || null`). -/
def createRoom (hostData : HostData) (roomConfig : CreateConfigInput)
    (roomId roomCode : String) (now : Nat) : Except String Room :=
  if hostData.walletAddress = "" then
    .error "Host wallet address required"
  else if jsLt roomConfig.entryFee.toNumber (.num 0) ∨
      jsLt (.num 1000) roomConfig.entryFee.toNumber then
    .error "Entry fee must be between 0 and 1000"
  else if roomConfig.asset ∉ validAssets then
    .error "Asset must be USDC, USDT, DAI, USDC.e, WETH, or WBTC"
  else if roomConfig.maxPlayers < 2 ∨ roomConfig.maxPlayers > 10 then
    .error "Max players must be between 2 and 10"
  else if roomConfig.topic ∉ validTopics then
    .error "Topic must be one of the valid topics"
  else if ¬roomConfig.isPublic ∧ trimString (roomConfig.password.getD "") = "" then
    .error "Private rooms require a password"
  else
    .ok
      { id := roomId
        code := roomCode
        host :=
          { walletAddress := hostData.walletAddress
            username := orElseStr hostData.username "Anonymous"
            socketId := none }
        config :=
          { entryFee := roomConfig.entryFee.toParseFloat
            asset := roomConfig.asset
            maxPlayers := roomConfig.maxPlayers
            topic := roomConfig.topic
            password :=
              match roomConfig.password with
              | none => none
              | some p => if p = "" then none else some p
            isPublic := roomConfig.isPublic }
        participants := []
        status := .waiting
        createdAt := now
        gameData := none
        yellowSession := none }

/-- `RoomService.getRoomById`: `rooms.get(roomId)`. -/
def getRoomById (store : List (String × Room)) (roomId : String) : Option Room :=
  lookupA store roomId

/-- `RoomService.findRoomByCode`: first room (in store insertion order)
whose code equals the upper-cased query. -/
def findRoomByCode (store : List (String × Room)) (roomCode : String) : Option Room :=
  (store.map Prod.snd).find? (fun room => room.code = toUpperCase roomCode)

/-- A sanitized participant entry (no socket id). -/
structure SanitizedParticipant where
  username : String
  walletAddress : String
  hasPaid : Bool
deriving DecidableEq, Repr

/-- The sanitized config: public fields plus a boolean `hasPassword`
(`!!room.config.password`); the password value itself is absent. -/
structure SanitizedConfig where
  entryFee : JsNum
  asset : String
  maxPlayers : Int
  topic : String
  isPublic : Bool
  hasPassword : Bool
deriving DecidableEq, Repr

/-- The outward-facing room view produced by `RoomService.sanitizeRoom`. -/
structure SanitizedRoom where
  id : String
  code : String
  hostUsername : String
  hostWalletAddress : String
  config : SanitizedConfig
  participants : List SanitizedParticipant
  status : Status
  createdAt : Nat
  currentPlayers : Nat
deriving DecidableEq, Repr

/-- `RoomService.sanitizeRoom`. -/
def sanitizeRoom (room : Room) : SanitizedRoom :=
  { id := room.id
    code := room.code
    hostUsername := room.host.username
    hostWalletAddress := room.host.walletAddress
    config :=
      { entryFee := room.config.entryFee
        asset := room.config.asset
        maxPlayers := room.config.maxPlayers
        topic := room.config.topic
        isPublic := room.config.isPublic
        hasPassword := (room.config.password.getD "") ≠ "" }
    participants :=
      room.participants.map (fun p => ⟨p.username, p.walletAddress, p.hasPaid⟩)
    status := room.status
    createdAt := room.createdAt
    currentPlayers := room.participants.length + 1 }

/-- The caller identity and password for a join. -/
structure JoinUserData where
  walletAddress : String
  username : Option String
  password : Option String
deriving DecidableEq, Repr

/-- `RoomService.joinRoom` applied to the room found by code: ordered
checks (status, capacity, password, duplicate, host), then push a new
participant. The capacity check is `participants.length >= maxPlayers`. -/
def joinRoom (room : Room) (userData : JoinUserData) : Except String Room :=
  if room.status ≠ .waiting then
    .error "Room has already started or ended"
  else if (room.participants.length : Int) ≥ room.config.maxPlayers then
    .error "Room is full"
  else if (room.config.password.getD "") ≠ "" ∧
      room.config.password ≠ userData.password then
    .error "Incorrect password"
  else if room.participants.any (fun p => p.walletAddress = userData.walletAddress) then
    .error "You have already joined this room"
  else if room.host.walletAddress = userData.walletAddress then
    .error "Host cannot join as participant"
  else
    .ok { room with
          participants := room.participants ++
            [{ walletAddress := userData.walletAddress
               username := orElseStr userData.username "Anonymous"
               socketId := none
               hasPaid := false }] }

/-- Remove the first participant satisfying `pred` (JS `findIndex` then
`splice`); `none` when no participant matches. -/
def removeFirstP (pred : Participant → Bool) : List Participant → Option (List Participant)
  | [] => none
  | p :: rest =>
      if pred p then some rest
      else
        match removeFirstP pred rest with
        | none => none
        | some rest' => some (p :: rest')

/-- `RoomService.leaveRoom`: remove the participant with the given address;
note the source performs no status check here. -/
def leaveRoom (room : Room) (walletAddress : String) : Except String Room :=
  match removeFirstP (fun p => p.walletAddress = walletAddress) room.participants with
  | some participants' => .ok { room with participants := participants' }
  | none => .error "User not in room"

/-- Outcome of the `room:leave` socket handler. -/
inductive LeaveOutcome where
  | roomClosed
  | left (room' : Room)
  | failure (error : String)
deriving DecidableEq, Repr

/-- The `room:leave` handler: a host leaving a `waiting` room closes it;
every other caller (including a participant of an in-progress room) goes
through `leaveRoom`. -/
def roomLeaveHandler (room : Room) (callerAddress : String) : LeaveOutcome :=
  let isHost := room.host.walletAddress = callerAddress
  if isHost ∧ room.status = .waiting then .roomClosed
  else
    match leaveRoom room callerAddress with
    | .ok room' => .left room'
    | .error e => .failure e

/-- Outcome of `RoomService.removeUserBySocket` for one room. -/
inductive DisconnectOutcome where
  | notFound
  | roomDeleted (walletAddress : String)
  | updated (room' : Room) (walletAddress : String) (isHost : Bool)
deriving DecidableEq, Repr

/-- Handle a participant disconnect: in a `waiting` room the first
participant bound to the socket is spliced out; otherwise their socket id
is set to `null` and they stay in the list. -/
def disconnectParticipants (socketId : String) (waiting : Bool) :
    List Participant → Option (List Participant × String)
  | [] => none
  | p :: rest =>
      if p.socketId = some socketId then
        if waiting then some (rest, p.walletAddress)
        else some ({ p with socketId := none } :: rest, p.walletAddress)
      else
        match disconnectParticipants socketId waiting rest with
        | none => none
        | some (rest', w) => some (p :: rest', w)

/-- `RoomService.removeUserBySocket` restricted to one room: a host
disconnect deletes a `waiting` room and only nulls the host socket
otherwise; a participant disconnect removes them only while `waiting`. -/
def removeUserBySocket (room : Room) (socketId : String) : DisconnectOutcome :=
  if room.host.socketId = some socketId then
    if room.status = .waiting then .roomDeleted room.host.walletAddress
    else
      .updated { room with host := { room.host with socketId := none } }
        room.host.walletAddress true
  else
    match disconnectParticipants socketId (room.status = .waiting) room.participants with
    | none => .notFound
    | some (participants', w) =>
        .updated { room with participants := participants' } w false

/-- Result delivered to the `room:startGame` caller. -/
inductive StartResult where
  | failure (error : String)
  | success (questionCount : Nat)
deriving DecidableEq, Repr

/-- The `room:startGame` handler on a found room. `fetchResult` stands for
the awaited `questionService.fetchQuestions` call (`.error` when it
throws); `yellowResult` stands for the Yellow session creation, whose
failures are caught and degrade to `none`. Checks in source order: host,
minimum participants, status. On fetch failure the catch block puts the
status back to `waiting`; `gameData` has not been touched at that point. -/
def startGame (room : Room) (callerAddress : String)
    (fetchResult : Except String (List Question))
    (yellowResult : Option String) (now : Nat) : StartResult × Room :=
  if room.host.walletAddress ≠ callerAddress then
    (.failure "Only host can start the game", room)
  else if room.participants.length < 1 then
    (.failure "Need at least 2 players to start", room)
  else if room.status ≠ .waiting then
    (.failure "Game already started", room)
  else
    match fetchResult with
    | .error e => (.failure e, { room with status := .waiting })
    | .ok questions =>
        if questions.length = 0 then
          (.failure "No questions available for this topic",
           { room with status := .waiting })
        else
          let allPlayers :=
            room.host.walletAddress :: room.participants.map (·.walletAddress)
          let gameData : GameData :=
            { questions := questions
              currentQuestionIndex := 0
              startedAt := now
              playerAnswers := allPlayers.foldl (fun m a => setA m a []) []
              playerScores := allPlayers.foldl (fun m a => setA m a 0) []
              questionStartTime := none
              endedAt := none }
          (.success questions.length,
           { room with
             status := .inProgress
             gameData := some gameData
             yellowSession := yellowResult })

/-- The `game:submitAnswer` payload `{questionNumber, answer, timeRemaining}`. -/
structure SubmitData where
  questionNumber : Int
  answer : Int
  timeRemaining : Int
deriving DecidableEq, Repr

/-- Result delivered to the `game:submitAnswer` caller. -/
inductive SubmitResult where
  | failure (error : String)
  | success (isCorrect : Bool) (score : Int) (totalScore : Int) (correctAnswer : Int)
deriving DecidableEq, Repr

/-- The `game:submitAnswer` handler on the caller's room: requires active
`gameData` and an in-range question number, rejects a duplicate submission
for the same (player, question index), otherwise scores
`points + max(0, timeRemaining)` on a correct answer and `0` otherwise,
stores the answer record at the question index, and adds the awarded score
to the player's running total. -/
def submitAnswer (room : Room) (walletAddress : String) (data : SubmitData)
    (now : Nat) : SubmitResult × Room :=
  match room.gameData with
  | none => (.failure "Game not active", room)
  | some gameData =>
      let questionIndex : Int := data.questionNumber - 1
      if questionIndex < 0 then
        (.failure "Invalid question number", room)
      else
        match gameData.questions[questionIndex.toNat]? with
        | none => (.failure "Invalid question number", room)
        | some question =>
            let qi := questionIndex.toNat
            let prior : Option AnswerRecord :=
              match lookupA gameData.playerAnswers walletAddress with
              | none => none
              | some arr => getIdx arr qi
            if prior.isSome then
              (.failure "Already answered this question", room)
            else
              let isCorrect : Bool := data.answer == question.correctAnswer
              let score : Int :=
                if isCorrect then question.points + max 0 data.timeRemaining else 0
              let arr := (lookupA gameData.playerAnswers walletAddress).getD []
              let record : AnswerRecord :=
                { answer := data.answer
                  isCorrect := isCorrect
                  timeRemaining := data.timeRemaining
                  score := score
                  timestamp := now }
              let playerAnswers' :=
                setA gameData.playerAnswers walletAddress (setIdx arr qi record)
              let totalScore :=
                (lookupA gameData.playerScores walletAddress).getD 0 + score
              let playerScores' := setA gameData.playerScores walletAddress totalScore
              (.success isCorrect score totalScore question.correctAnswer,
               { room with
                 gameData := some
                   { gameData with
                     playerAnswers := playerAnswers'
                     playerScores := playerScores' } })

/-- One leaderboard entry `{username, walletAddress, score, correctAnswers}`. -/
structure RankEntry where
  username : String
  walletAddress : String
  score : Int
  correctAnswers : Nat
deriving DecidableEq, Repr

/-- Build the leaderboard entry for one `playerScores` binding: resolve the
display name via host/participant lookup and count the player's stored
correct answers (sparse-array `filter` skips holes). -/
def entryOf (room : Room) (gameData : GameData) (p : String × Int) : RankEntry :=
  { username :=
      if p.1 = room.host.walletAddress then room.host.username
      else
        orElseStr ((room.participants.find? (fun q => q.walletAddress = p.1)).map
          (·.username)) "Unknown"
    walletAddress := p.1
    score := p.2
    correctAnswers :=
      match lookupA gameData.playerAnswers p.1 with
      | some arr =>
          (arr.filter (fun a =>
            match a with
            | some r => r.isCorrect
            | none => false)).length
      | none => 0 }

/-- `calculateLeaderboard`: map `Object.entries(playerScores)` to entries
and sort by score descending (`sort((a, b) => b.score - a.score)`, a stable
sort in JS, modelled by `List.mergeSort`). -/
def calculateLeaderboard (room : Room) (gameData : GameData) : List RankEntry :=
  (gameData.playerScores.map (entryOf room gameData)).mergeSort
    (fun a b => b.score ≤ a.score)

/-- The external settlement call issued by `endGame` when a Yellow session
is open: `closeAppSession(sessionId, winner, prizeAmount)`. -/
structure SettlementCall where
  sessionId : String
  winner : String
  prizeAmount : JsNum
deriving DecidableEq, Repr

/-- `endGame`: mark the room `completed`, stamp `endedAt`, compute the
final rankings, and — when a settlement session is open and a winner
exists — close it with the top-ranked player and a prize of
`entryFee * (1 + participants.length)`. Returns the updated room, the
rankings broadcast in `game:ended`, and the settlement call, if any. -/
def endGame (room : Room) (now : Nat) :
    Room × List RankEntry × Option SettlementCall :=
  match room.gameData with
  | none => (room, [], none)
  | some gameData =>
      let gameData' := { gameData with endedAt := some now }
      let room' := { room with status := .completed, gameData := some gameData' }
      let rankings := calculateLeaderboard room' gameData'
      let settlement : Option SettlementCall :=
        match room.yellowSession, rankings with
        | some sessionId, winner :: _ =>
            some
              { sessionId := sessionId
                winner := winner.walletAddress
                prizeAmount :=
                  jsMul room.config.entryFee
                    (.num (1 + (room.participants.length : Rat))) }
        | _, _ => none
      (room', rankings, settlement)

/-- `sendNextQuestion`'s state effect for one invocation on the stored
room: past the last question it runs `endGame`; otherwise it stamps
`questionStartTime` and (in the source) broadcasts the question and arms
the deadline timer for the current index. -/
def sendNextQuestionStep (store : List (String × Room)) (roomId : String)
    (now : Nat) : List (String × Room) :=
  match lookupA store roomId with
  | none => store
  | some room =>
      match room.gameData with
      | none => store
      | some gameData =>
          if gameData.currentQuestionIndex ≥ gameData.questions.length then
            setA store roomId (endGame room now).1
          else
            setA store roomId
              { room with
                gameData := some { gameData with questionStartTime := some now } }

/-- The deadline-timer callback armed when question index `i` was
dispatched: re-fetch the room by id (no-op when it has been deleted), and
advance only if `currentQuestionIndex` is still `i`, then dispatch the
next question. -/
def questionTimerFired (store : List (String × Room)) (roomId : String)
    (i : Nat) (now : Nat) : List (String × Room) :=
  match lookupA store roomId with
  | none => store
  | some room =>
      match room.gameData with
      | none => store
      | some gameData =>
          if gameData.currentQuestionIndex = i then
            sendNextQuestionStep
              (setA store roomId
                { room with
                  gameData := some { gameData with currentQuestionIndex := i + 1 } })
              roomId now
          else store

/-! ### Helper lemmas -/

instance {ε α : Type} [DecidableEq ε] [DecidableEq α] : DecidableEq (Except ε α) :=
  fun a b =>
    match a, b with
    | .ok x, .ok y =>
        if h : x = y then .isTrue (h ▸ rfl)
        else .isFalse (fun hc => h (by injection hc))
    | .error e, .error f =>
        if h : e = f then .isTrue (h ▸ rfl)
        else .isFalse (fun hc => h (by injection hc))
    | .ok _, .error _ => .isFalse (fun hc => Except.noConfusion hc)
    | .error _, .ok _ => .isFalse (fun hc => Except.noConfusion hc)

theorem lookupA_setA_self {α : Type} (m : List (String × α)) (k : String) (v : α) :
    lookupA (setA m k v) k = some v := by
  induction m with
  | nil => simp [setA, lookupA]
  | cons hd tl ih =>
      obtain ⟨k', v'⟩ := hd
      by_cases h : k' = k
      · simp [setA, lookupA, h]
      · simp [setA, lookupA, h, ih]

theorem getIdx_setIdx_self {α : Type} (l : List (Option α)) (i : Nat) (v : α) :
    getIdx (setIdx l i v) i = some v := by
  induction i generalizing l with
  | zero => cases l <;> simp [setIdx, getIdx]
  | succ n ih =>
      cases l with
      | nil => simpa [setIdx, getIdx] using ih []
      | cons x rest => simpa [setIdx, getIdx] using ih rest

/-- Characterization of a fresh, in-range `game:submitAnswer` call. -/
theorem submitAnswer_success_spec
    (room : Room) (gameData : GameData) (walletAddress : String)
    (data : SubmitData) (now : Nat) (question : Question)
    (hgd : room.gameData = some gameData)
    (hpos : ¬ data.questionNumber - 1 < 0)
    (hq : gameData.questions[(data.questionNumber - 1).toNat]? = some question)
    (hprior : (match lookupA gameData.playerAnswers walletAddress with
               | none => (none : Option AnswerRecord)
               | some arr => getIdx arr (data.questionNumber - 1).toNat) = none) :
    submitAnswer room walletAddress data now =
      (SubmitResult.success (data.answer == question.correctAnswer)
        (if data.answer == question.correctAnswer
         then question.points + max 0 data.timeRemaining else 0)
        ((lookupA gameData.playerScores walletAddress).getD 0 +
          (if data.answer == question.correctAnswer
           then question.points + max 0 data.timeRemaining else 0))
        question.correctAnswer,
       { room with
         gameData := some
           { gameData with
             playerAnswers := setA gameData.playerAnswers walletAddress
               (setIdx ((lookupA gameData.playerAnswers walletAddress).getD [])
                 (data.questionNumber - 1).toNat
                 { answer := data.answer
                   isCorrect := data.answer == question.correctAnswer
                   timeRemaining := data.timeRemaining
                   score := if data.answer == question.correctAnswer
                            then question.points + max 0 data.timeRemaining else 0
                   timestamp := now })
             playerScores := setA gameData.playerScores walletAddress
               ((lookupA gameData.playerScores walletAddress).getD 0 +
                 (if data.answer == question.correctAnswer
                  then question.points + max 0 data.timeRemaining else 0)) } }) := by
  unfold submitAnswer
  rw [hgd]
  simp only [hpos, if_false, hq, hprior, Option.isSome_none, Bool.false_eq_true]

/-- `formatQuestion` never yields a negative correct-answer index. -/
theorem formatQuestion_correctAnswer_nonneg (raw : RawQuestion) (idx : Nat) :
    0 ≤ (formatQuestion raw idx).correctAnswer := by
  unfold formatQuestion
  cases h : List.findIdx? (fun opt => opt = raw.answer) raw.options with
  | none => simp [h]
  | some i =>
      simp only [h]
      split <;> omega

/-! ### Concrete fixtures used by the witnesses -/

/-- A concrete formatted question; its correct option index is 1. -/
def wQuestion : Question :=
  formatQuestion
    { question := "2+2?", options := ["3", "4", "5", "6"], answer := "4",
      topic := some "Age", explanation := none } 0

/-- Game state of a freshly started two-player game on `wQuestion`. -/
def wGameData : GameData :=
  { questions := [wQuestion]
    currentQuestionIndex := 0
    startedAt := 0
    playerAnswers := [("h", []), ("a", [])]
    playerScores := [("h", 0), ("a", 0)]
    questionStartTime := none
    endedAt := none }

/-- A concrete stored room config. -/
def wConfig : RoomConfig :=
  { entryFee := .num 5, asset := "USDC", maxPlayers := 2, topic := "Age",
    password := none, isPublic := true }

/-- A concrete in-progress two-player room with an open settlement session. -/
def wRoom : Room :=
  { id := "room_1"
    code := "ABC123"
    host := { walletAddress := "h", username := "Host", socketId := some "s1" }
    config := wConfig
    participants :=
      [{ walletAddress := "a", username := "Alice", socketId := some "s2",
         hasPaid := false }]
    status := .inProgress
    createdAt := 0
    gameData := some wGameData
    yellowSession := some "sess1" }

/-! ### Claim theorems -/

/-- **C1.** For an answer submission in an active game with a valid
question number and no prior answer by that player for that question: a
submission equal to the question's correct option index is awarded
`pointValue + max 0 timeRemaining` (so with `timeRemaining = 0` exactly
`pointValue`); a differing submission is marked incorrect and awarded 0 —
in particular index −1 can never match, because `formatQuestion` always
yields a correct-answer index ≥ 0. -/
theorem C1_scoring
    (room : Room) (gameData : GameData) (walletAddress : String)
    (data : SubmitData) (now : Nat) (question : Question)
    (hgd : room.gameData = some gameData)
    (hpos : ¬ data.questionNumber - 1 < 0)
    (hq : gameData.questions[(data.questionNumber - 1).toNat]? = some question)
    (hprior : (match lookupA gameData.playerAnswers walletAddress with
               | none => (none : Option AnswerRecord)
               | some arr => getIdx arr (data.questionNumber - 1).toNat) = none) :
    (data.answer = question.correctAnswer →
      (submitAnswer room walletAddress data now).1 =
        .success true (question.points + max 0 data.timeRemaining)
          ((lookupA gameData.playerScores walletAddress).getD 0 +
            (question.points + max 0 data.timeRemaining)) question.correctAnswer)
    ∧ (data.answer = question.correctAnswer → data.timeRemaining = 0 →
      (submitAnswer room walletAddress data now).1 =
        .success true question.points
          ((lookupA gameData.playerScores walletAddress).getD 0 + question.points)
          question.correctAnswer)
    ∧ (data.answer ≠ question.correctAnswer →
      (submitAnswer room walletAddress data now).1 =
        .success false 0 ((lookupA gameData.playerScores walletAddress).getD 0)
          question.correctAnswer)
    ∧ (∀ raw idx, 0 ≤ (formatQuestion raw idx).correctAnswer)
    ∧ (0 ≤ question.correctAnswer → data.answer = -1 →
      (submitAnswer room walletAddress data now).1 =
        .success false 0 ((lookupA gameData.playerScores walletAddress).getD 0)
          question.correctAnswer) := by
  have hspec := submitAnswer_success_spec room gameData walletAddress data now
    question hgd hpos hq hprior
  refine ⟨?_, ?_, ?_, formatQuestion_correctAnswer_nonneg, ?_⟩
  · intro h
    rw [hspec]
    simp [h]
  · intro h ht
    rw [hspec]
    simp [h, ht]
  · intro h
    rw [hspec]
    simp [beq_iff_eq, h]
  · intro hca h
    have hne : data.answer ≠ question.correctAnswer := by omega
    rw [hspec]
    simp [beq_iff_eq, hne]

/-- Witness for C1: Alice answers question 1 with option 1 (correct) and
7 seconds left, earning 10 + 7 = 17 points. -/
theorem C1_scoring_witness :
    ¬ ((1 : Int) - 1 < 0) ∧
    (submitAnswer wRoom "a" ⟨1, 1, 7⟩ 0).1 = .success true 17 17 1 := by
  refine ⟨by decide, ?_⟩
  have h := (C1_scoring wRoom wGameData "a" ⟨1, 1, 7⟩ 0 wQuestion rfl (by decide)
    rfl rfl).1 rfl
  rw [h]
  decide

/-- **C4.** At most one answer record per (player, question index): after a
successful submission, a second submission by the same player for the same
question number is rejected with "Already answered this question" and
leaves the room — hence the stored first answer record and the player's
total score — unchanged. -/
theorem C4_write_once
    (room : Room) (gameData : GameData) (walletAddress : String)
    (data data' : SubmitData) (now now' : Nat) (question : Question)
    (hgd : room.gameData = some gameData)
    (hpos : ¬ data.questionNumber - 1 < 0)
    (hq : gameData.questions[(data.questionNumber - 1).toNat]? = some question)
    (hprior : (match lookupA gameData.playerAnswers walletAddress with
               | none => (none : Option AnswerRecord)
               | some arr => getIdx arr (data.questionNumber - 1).toNat) = none)
    (hsame : data'.questionNumber = data.questionNumber) :
    submitAnswer ((submitAnswer room walletAddress data now).2) walletAddress
        data' now' =
      (.failure "Already answered this question",
       (submitAnswer room walletAddress data now).2) := by
  have hspec := submitAnswer_success_spec room gameData walletAddress data now
    question hgd hpos hq hprior
  rw [hspec]
  unfold submitAnswer
  simp only [hsame, hpos, if_false, hq, lookupA_setA_self, getIdx_setIdx_self,
    Option.isSome_some, if_true]

/-- Witness for C4: Alice's second submission for question 1 is rejected
and the room state after her first submission is returned unchanged. -/
theorem C4_write_once_witness :
    ¬ ((1 : Int) - 1 < 0) ∧
    submitAnswer ((submitAnswer wRoom "a" ⟨1, 1, 7⟩ 0).2) "a" ⟨1, 0, 30⟩ 5 =
      (.failure "Already answered this question",
       (submitAnswer wRoom "a" ⟨1, 1, 7⟩ 0).2) := by
  exact ⟨by decide,
    C4_write_once wRoom wGameData "a" ⟨1, 1, 7⟩ ⟨1, 0, 30⟩ 0 5 wQuestion rfl
      (by decide) rfl rfl rfl⟩

/-- A `waiting` two-player room (maxPlayers = 2) with one participant. -/
def c2Room : Room :=
  { id := "room_2"
    code := "DEF456"
    host := { walletAddress := "h", username := "Host", socketId := some "s1" }
    config := wConfig
    participants :=
      [{ walletAddress := "b", username := "Bob", socketId := some "s3",
         hasPaid := false }]
    status := .waiting
    createdAt := 0
    gameData := none
    yellowSession := none }

/-- `c2Room` with its participants list at the code's capacity bound. -/
def c2FullRoom : Room :=
  { c2Room with
    participants :=
      [{ walletAddress := "b", username := "Bob", socketId := some "s3",
         hasPaid := false },
       { walletAddress := "c", username := "Cara", socketId := some "s4",
         hasPaid := false }] }

/-- Counterexample to C2 as stated: in a `waiting` room with
`maxPlayers = 2` and one participant, a further join succeeds (the check
is `participants.length >= maxPlayers`, which reserves no slot for the
host), leaving `participants.length = 2 > maxPlayers − 1`. -/
theorem C2_counterexample :
    joinRoom c2Room ⟨"c", some "Cara", none⟩ =
      .ok ({ c2Room with
             participants := c2Room.participants ++
               [{ walletAddress := "c", username := "Cara", socketId := none,
                  hasPaid := false }] } : Room) ∧
    (c2Room.participants ++
      [({ walletAddress := "c", username := "Cara", socketId := none,
          hasPaid := false } : Participant)]).length = 2 ∧
    ¬ ((2 : Int) ≤ c2Room.config.maxPlayers - 1) := by
  refine ⟨?_, by decide, by decide⟩
  decide

/-- **C2 (amended).** After every successful join the participants list
has length at most `config.maxPlayers` (the capacity check counts only
participants and reserves no slot for the host, so the total head count
including the host may reach `maxPlayers + 1`): a join is accepted only
while `participants.length < maxPlayers`, and once
`participants.length ≥ maxPlayers` a further join on a `waiting` room
fails with the full-room error and produces no modified room. -/
theorem C2_amended (room : Room) (u : JoinUserData) :
    (∀ room', joinRoom room u = .ok room' →
        (room'.participants.length : Int) ≤ room.config.maxPlayers ∧
        room'.participants.length = room.participants.length + 1)
    ∧ ((room.participants.length : Int) ≥ room.config.maxPlayers →
        room.status = .waiting →
        joinRoom room u = .error "Room is full") := by
  constructor
  · intro room' h
    unfold joinRoom at h
    split at h
    · exact Except.noConfusion h
    · split at h
      · exact Except.noConfusion h
      · split at h
        · exact Except.noConfusion h
        · split at h
          · exact Except.noConfusion h
          · split at h
            · exact Except.noConfusion h
            · rename_i hstatus hfull hpw hdup hhost
              injection h with h'
              subst h'
              refine ⟨?_, by simp⟩
              simp only [List.length_append, List.length_cons, List.length_nil]
              omega
  · intro hfull hwait
    unfold joinRoom
    rw [if_neg (by simp [hwait]), if_pos hfull]

/-- Witness for C2 (amended): with both participant slots taken in
`c2FullRoom` (maxPlayers = 2), a further join fails with "Room is full". -/
theorem C2_amended_witness :
    ((c2FullRoom.participants.length : Int) ≥ c2FullRoom.config.maxPlayers) ∧
    joinRoom c2FullRoom ⟨"e", some "Eve", none⟩ = .error "Room is full" :=
  ⟨by decide,
   (C2_amended c2FullRoom ⟨"e", some "Eve", none⟩).2 (by decide) (by decide)⟩

/-- Removing the first matching participant shortens the list by one. -/
theorem removeFirstP_length (pred : Participant → Bool) :
    ∀ (l l' : List Participant), removeFirstP pred l = some l' →
      l'.length + 1 = l.length := by
  intro l
  induction l with
  | nil => intro l' h; simp [removeFirstP] at h
  | cons p rest ih =>
      intro l' h
      unfold removeFirstP at h
      split at h
      · injection h with h'
        subst h'
        rfl
      · revert h
        cases hrec : removeFirstP pred rest with
        | none => intro h; simp at h
        | some rest' =>
            intro h
            injection h with h'
            subst h'
            simpa using ih rest' hrec

/-- A mid-game disconnect marks the first matching participant absent but
keeps every participant's address in place. -/
theorem disconnectParticipants_marks (sid : String) :
    ∀ (l : List Participant) (l' : List Participant) (w : String),
      disconnectParticipants sid false l = some (l', w) →
      l'.map (·.walletAddress) = l.map (·.walletAddress) := by
  intro l
  induction l with
  | nil => intro l' w h; simp [disconnectParticipants] at h
  | cons p rest ih =>
      intro l' w h
      unfold disconnectParticipants at h
      split at h
      · simp only [Bool.false_eq_true, if_false, Option.some.injEq,
          Prod.mk.injEq] at h
        obtain ⟨h1, _⟩ := h
        subst h1
        simp
      · rcases hrec : disconnectParticipants sid false rest with _ | ⟨rest', w''⟩
        · rw [hrec] at h
          exact Option.noConfusion h
        · rw [hrec] at h
          simp only [Option.some.injEq, Prod.mk.injEq] at h
          obtain ⟨h1, _⟩ := h
          subst h1
          simp only [List.map_cons]
          rw [ih rest' w'' hrec]

/-- Counterexample to C3 as stated: in the in-progress room `wRoom`,
participant "a" invokes the explicit leave operation and is structurally
removed from the participants list — `'waiting'` is not the only state in
which leave mutates `participants`. -/
theorem C3_counterexample :
    wRoom.status = .inProgress ∧
    roomLeaveHandler wRoom "a" = .left { wRoom with participants := [] } ∧
    ({ wRoom with participants := [] }).participants.length ≠
      wRoom.participants.length := by
  refine ⟨by decide, ?_, by decide⟩
  decide

/-- **C3 (amended).** Join mutates `participants` only in `waiting`, and a
*disconnecting* player in a non-`waiting` room is marked absent (socket id
nulled) rather than removed, preserving address order and the score data;
the explicit `room:leave` operation, however, performs no status check and
removes the participant in any status. -/
theorem C3_amended (room : Room) (u : JoinUserData) (sid : String) (w : String) :
    (room.status ≠ .waiting →
       joinRoom room u = .error "Room has already started or ended")
    ∧ (room.status ≠ .waiting →
       ∀ a, removeUserBySocket room sid ≠ .roomDeleted a)
    ∧ (room.status ≠ .waiting →
       ∀ room' a ih, removeUserBySocket room sid = .updated room' a ih →
         room'.participants.map (·.walletAddress) =
           room.participants.map (·.walletAddress) ∧
         room'.gameData = room.gameData)
    ∧ (∀ room', leaveRoom room w = .ok room' →
         room'.participants.length + 1 = room.participants.length) := by
  refine ⟨?_, ?_, ?_, ?_⟩
  · intro h
    unfold joinRoom
    rw [if_pos h]
  · intro h a
    unfold removeUserBySocket
    by_cases hh : room.host.socketId = some sid
    · rw [if_pos hh, if_neg h]
      simp
    · rw [if_neg hh]
      rcases hrec : disconnectParticipants sid (room.status = .waiting)
          room.participants with _ | ⟨l', w'⟩ <;> simp [hrec]
  · intro h room' a ih hu
    unfold removeUserBySocket at hu
    by_cases hh : room.host.socketId = some sid
    · rw [if_pos hh, if_neg h] at hu
      injection hu with h1
      subst h1
      exact ⟨rfl, rfl⟩
    · rw [if_neg hh] at hu
      have hwb : decide (room.status = .waiting) = false := decide_eq_false h
      rcases hrec : disconnectParticipants sid (room.status = .waiting)
          room.participants with _ | ⟨l', w'⟩
      · rw [hrec] at hu
        exact DisconnectOutcome.noConfusion hu
      · rw [hrec] at hu
        injection hu with h1 h2 h3
        subst h1
        refine ⟨?_, rfl⟩
        have hrec' : disconnectParticipants sid false room.participants =
            some (l', w') := by rwa [hwb] at hrec
        simpa using disconnectParticipants_marks sid room.participants l' w' hrec'
  · intro room' hl
    unfold leaveRoom at hl
    revert hl
    cases hrec : removeFirstP (fun p => p.walletAddress = w) room.participants with
    | none => intro hl; simp at hl
    | some l' =>
        intro hl
        injection hl with h1
        subst h1
        exact removeFirstP_length _ _ _ hrec

/-- Witness for C3 (amended) on the in-progress room `wRoom`: a join is
rejected, and the explicit leave removes participant "a". -/
theorem C3_amended_witness :
    (wRoom.status ≠ .waiting ∧
      joinRoom wRoom ⟨"e", some "Eve", none⟩ =
        .error "Room has already started or ended") ∧
    ({ wRoom with participants := [] }).participants.length + 1 =
      wRoom.participants.length :=
  ⟨⟨by decide, (C3_amended wRoom ⟨"e", some "Eve", none⟩ "s2" "a").1 (by decide)⟩,
   (C3_amended wRoom ⟨"e", some "Eve", none⟩ "s2" "a").2.2.2
     { wRoom with participants := [] } (by decide)⟩

/-- `c2Room` with a zero entry fee, for the C6 boundary instance. -/
def c6Room : Room :=
  { c2Room with config := { wConfig with entryFee := .num 0 } }

/-- **C5.** When the question fetch fails, `startGame` returns the failure
reason to the caller and puts the room status back to `waiting`;
`gameData` is untouched at that point (still null for a first start), so a
subsequent `startGame` with a successful fetch succeeds — the start is
atomic all-or-nothing. -/
theorem C5_start_atomic
    (room : Room) (caller : String) (e : String) (yr : Option String) (now : Nat)
    (hhost : room.host.walletAddress = caller)
    (hpart : 1 ≤ room.participants.length)
    (hwait : room.status = .waiting) :
    startGame room caller (.error e) yr now =
      (.failure e, { room with status := .waiting }) ∧
    ({ room with status := .waiting } : Room).gameData = room.gameData ∧
    (room.gameData = none →
      ({ room with status := .waiting } : Room).gameData = none) ∧
    (∀ questions yr' now', questions ≠ [] →
      (startGame { room with status := .waiting } caller (.ok questions)
        yr' now').1 = .success questions.length) := by
  refine ⟨?_, rfl, fun h => h, ?_⟩
  · unfold startGame
    rw [if_neg (by simp [hhost]), if_neg (by omega), if_neg (by simp [hwait])]
  · intro questions yr' now' hne
    unfold startGame
    rw [if_neg (by simp [hhost]), if_neg (Nat.not_lt.mpr hpart),
      if_neg (by simp)]
    have h0 : ¬ (questions.length = 0) := by simpa using hne
    simp [h0]

/-- Witness for C5: a fetch failure on the waiting room `c2Room` reverts
it to `waiting` and a retry with one fetched question then succeeds. -/
theorem C5_start_atomic_witness :
    c2Room.host.walletAddress = "h" ∧
    startGame c2Room "h" (.error "boom") none 0 =
      (.failure "boom", { c2Room with status := .waiting }) ∧
    (startGame { c2Room with status := .waiting } "h" (.ok [wQuestion])
      none 1).1 = .success 1 := by
  have h := C5_start_atomic c2Room "h" "boom" none 0 rfl (by decide) rfl
  exact ⟨rfl, h.1, by simpa using h.2.2.2 [wQuestion] none 1 (by simp)⟩

/-- **C6.** `startGame` succeeds only when the caller is the host, the
room is `waiting`, and at least one participant has joined; a call
violating any of these is rejected with a failure and leaves the room
unchanged; and a waiting room with `maxPlayers = 2`, `entryFee = 0`, and
exactly one participant meets the threshold, so start succeeds when the
fetch delivers questions. -/
theorem C6_start_preconditions
    (room : Room) (caller : String) (fetch : Except String (List Question))
    (yr : Option String) (now : Nat) :
    (∀ n, (startGame room caller fetch yr now).1 = .success n →
        room.host.walletAddress = caller ∧ room.status = .waiting ∧
          1 ≤ room.participants.length)
    ∧ (room.host.walletAddress ≠ caller ∨ room.participants.length < 1 ∨
        room.status ≠ .waiting →
        ∃ err, startGame room caller fetch yr now = (.failure err, room))
    ∧ (room.config.maxPlayers = 2 → room.config.entryFee = .num 0 →
        room.participants.length = 1 → room.host.walletAddress = caller →
        room.status = .waiting →
        ∀ questions, fetch = .ok questions → questions ≠ [] →
        (startGame room caller fetch yr now).1 = .success questions.length) := by
  refine ⟨?_, ?_, ?_⟩
  · intro n h
    unfold startGame at h
    split at h
    · simp at h
    · split at h
      · simp at h
      · split at h
        · simp at h
        · rename_i h1 h2 h3
          exact ⟨not_ne_iff.mp h1, not_ne_iff.mp h3, by omega⟩
  · intro hviol
    unfold startGame
    by_cases h1 : room.host.walletAddress ≠ caller
    · rw [if_pos h1]
      exact ⟨_, rfl⟩
    · rw [if_neg h1]
      by_cases h2 : room.participants.length < 1
      · rw [if_pos h2]
        exact ⟨_, rfl⟩
      · rw [if_neg h2]
        have h3 : room.status ≠ .waiting := by tauto
        rw [if_pos h3]
        exact ⟨_, rfl⟩
  · intro _ _ hlen hhost hwait questions hfetch hne
    subst hfetch
    unfold startGame
    rw [if_neg (by simp [hhost]), if_neg (by omega), if_neg (by simp [hwait])]
    have h0 : ¬ (questions.length = 0) := by simpa using hne
    simp [h0]

/-- Witness for C6: the boundary room `c6Room` (maxPlayers 2, zero entry
fee, one participant) starts successfully with one fetched question. -/
theorem C6_start_preconditions_witness :
    (c6Room.config.maxPlayers = 2 ∧ c6Room.config.entryFee = .num 0 ∧
      c6Room.participants.length = 1) ∧
    (startGame c6Room "h" (.ok [wQuestion]) none 0).1 = .success 1 := by
  refine ⟨⟨rfl, rfl, rfl⟩, ?_⟩
  have h := (C6_start_preconditions c6Room "h" (.ok [wQuestion]) none 0).2.2
    rfl rfl rfl rfl rfl [wQuestion] rfl (by simp)
  simpa using h

/-- `endGame` on a room with game data, written as an explicit tuple. -/
theorem endGame_eq (room : Room) (gameData : GameData) (now : Nat)
    (hgd : room.gameData = some gameData) :
    endGame room now =
      ({ room with
          status := .completed
          gameData := some { gameData with endedAt := some now } },
       calculateLeaderboard
         { room with
           status := .completed
           gameData := some { gameData with endedAt := some now } }
         { gameData with endedAt := some now },
       match room.yellowSession,
         (calculateLeaderboard
           { room with
             status := .completed
             gameData := some { gameData with endedAt := some now } }
           { gameData with endedAt := some now }) with
       | some sessionId, winner :: _ =>
           some { sessionId := sessionId, winner := winner.walletAddress,
                  prizeAmount := jsMul room.config.entryFee
                    (.num (1 + (room.participants.length : Rat))) }
       | _, _ => none) := by
  unfold endGame
  rw [hgd]

/-- `endGame` leaves the current question index unchanged. -/
theorem endGame_gameData (room : Room) (gameData : GameData) (now : Nat)
    (hgd : room.gameData = some gameData) :
    (endGame room now).1.gameData = some { gameData with endedAt := some now } := by
  rw [endGame_eq room gameData now hgd]

/-- One `sendNextQuestion` invocation never changes the stored
question index. -/
theorem sendNextQuestionStep_index (store : List (String × Room))
    (roomId : String) (now : Nat) (room : Room) (gd : GameData)
    (hlk : lookupA store roomId = some room) (hgd : room.gameData = some gd) :
    ∃ room' gd',
      lookupA (sendNextQuestionStep store roomId now) roomId = some room' ∧
      room'.gameData = some gd' ∧
      gd'.currentQuestionIndex = gd.currentQuestionIndex := by
  unfold sendNextQuestionStep
  simp only [hlk, hgd]
  by_cases hend : gd.currentQuestionIndex ≥ gd.questions.length
  · rw [if_pos hend]
    exact ⟨(endGame room now).1, { gd with endedAt := some now },
      lookupA_setA_self _ _ _, endGame_gameData room gd now hgd, rfl⟩
  · rw [if_neg hend]
    exact ⟨_, { gd with questionStartTime := some now },
      lookupA_setA_self _ _ _, rfl, rfl⟩

/-- **C7.** The deadline timer armed when question index `i` was
dispatched advances the game only if `currentQuestionIndex` still equals
`i` at firing time: a stale timer (index already moved) is a no-op; a
timer firing against a room that has been deleted from the store
re-fetches by id, finds nothing, and returns the store unchanged; when
the index recheck passes the index advances to `i + 1` exactly once; and
submitting an answer never changes `currentQuestionIndex` — the timer is
the only mechanism that advances the index. -/
theorem C7_timer_guard
    (store : List (String × Room)) (roomId : String) (i : Nat) (now : Nat) :
    (lookupA store roomId = none →
       questionTimerFired store roomId i now = store)
    ∧ (∀ room gameData, lookupA store roomId = some room →
        room.gameData = some gameData →
        gameData.currentQuestionIndex ≠ i →
        questionTimerFired store roomId i now = store)
    ∧ (∀ room gameData, lookupA store roomId = some room →
        room.gameData = some gameData →
        gameData.currentQuestionIndex = i →
        ∃ room' gameData',
          lookupA (questionTimerFired store roomId i now) roomId = some room' ∧
          room'.gameData = some gameData' ∧
          gameData'.currentQuestionIndex = i + 1)
    ∧ (∀ room addr data t,
        (submitAnswer room addr data t).2.gameData.map (·.currentQuestionIndex) =
          room.gameData.map (·.currentQuestionIndex)) := by
  refine ⟨?_, ?_, ?_, ?_⟩
  · intro h
    unfold questionTimerFired
    rw [h]
  · intro room gameData hlk hgd hne
    unfold questionTimerFired
    simp only [hlk, hgd]
    rw [if_neg hne]
  · intro room gameData hlk hgd hidx
    unfold questionTimerFired
    simp only [hlk, hgd]
    rw [if_pos hidx]
    obtain ⟨room', gd', h1, h2, h3⟩ :=
      sendNextQuestionStep_index
        (setA store roomId
          { room with gameData := some { gameData with currentQuestionIndex := i + 1 } })
        roomId now
        { room with gameData := some { gameData with currentQuestionIndex := i + 1 } }
        { gameData with currentQuestionIndex := i + 1 }
        (lookupA_setA_self _ _ _) rfl
    exact ⟨room', gd', h1, h2, by simpa using h3⟩
  · intro room addr data t
    rcases hgd : room.gameData with _ | gameData
    · simp [submitAnswer, hgd]
    · unfold submitAnswer
      rw [hgd]
      by_cases h1 : data.questionNumber - 1 < 0
      · simp only [h1, if_true]
        simp [hgd]
      · rcases hq : gameData.questions[(data.questionNumber - 1).toNat]? with _ | question
        · simp only [h1, if_false, hq]
          simp [hgd]
        · rcases hp : (match lookupA gameData.playerAnswers addr with
              | none => (none : Option AnswerRecord)
              | some arr => getIdx arr (data.questionNumber - 1).toNat) with _ | rec
          · simp only [h1, if_false, hq, hp, Option.isSome_none,
              Bool.false_eq_true]
            simp [hgd]
          · simp only [h1, if_false, hq, hp, Option.isSome_some, if_true]
            simp [hgd]

/-- Witness for C7: a timer firing on an empty store is a no-op, a stale
timer (index 5 armed, current index 0) is a no-op, and a submission
leaves the index unchanged. -/
theorem C7_timer_guard_witness :
    lookupA ([] : List (String × Room)) "room_1" = none ∧
    questionTimerFired [] "room_1" 0 99 = [] ∧
    questionTimerFired [("room_1", wRoom)] "room_1" 5 99 = [("room_1", wRoom)] ∧
    (submitAnswer wRoom "a" ⟨1, 1, 7⟩ 0).2.gameData.map (·.currentQuestionIndex) =
      wRoom.gameData.map (·.currentQuestionIndex) :=
  ⟨rfl, (C7_timer_guard [] "room_1" 0 99).1 rfl,
   (C7_timer_guard [("room_1", wRoom)] "room_1" 5 99).2.1 wRoom wGameData rfl rfl
     (by decide),
   (C7_timer_guard [] "room_1" 0 99).2.2.2 wRoom "a" ⟨1, 1, 7⟩ 0⟩

/-- **C8.** When the question list is exhausted, `endGame` marks the room
`completed`; the final rankings are one entry per player of
`playerScores` — each carrying display name, wallet address, score, and
correct-answer count — sorted by score in descending order; and when a
settlement session is open it is closed with the top-ranked player as
winner and a prize of `entryFee × (1 + participants.length)` (host plus
all participants). -/
theorem C8_endGame_rollup
    (room : Room) (gameData : GameData) (now : Nat)
    (hgd : room.gameData = some gameData) :
    (endGame room now).1.status = .completed
    ∧ (endGame room now).2.1.Pairwise
        (fun a b : RankEntry => b.score ≤ a.score)
    ∧ (endGame room now).2.1.Perm
        (gameData.playerScores.map (entryOf room gameData))
    ∧ (∀ sid, room.yellowSession = some sid → gameData.playerScores ≠ [] →
        ∃ winner rest,
          (endGame room now).2.1 = winner :: rest ∧
          (endGame room now).2.2 = some
            { sessionId := sid
              winner := winner.walletAddress
              prizeAmount := jsMul room.config.entryFee
                (.num (1 + (room.participants.length : Rat))) }) := by
  rw [endGame_eq room gameData now hgd]
  refine ⟨rfl, ?_, ?_, ?_⟩
  · show (calculateLeaderboard _ _).Pairwise _
    unfold calculateLeaderboard
    refine List.Pairwise.imp ?_ (List.sorted_mergeSort ?_ ?_ _)
    · intro a b h
      simpa using h
    · intro a b c hab hbc
      simp only [decide_eq_true_eq] at hab hbc ⊢
      omega
    · intro a b
      simpa using le_total b.score a.score
  · show (calculateLeaderboard _ _).Perm _
    unfold calculateLeaderboard
    exact List.mergeSort_perm _ _
  · intro sid hsid hne
    have hlen : (calculateLeaderboard
        { room with
          status := .completed
          gameData := some { gameData with endedAt := some now } }
        { gameData with endedAt := some now }).length =
        gameData.playerScores.length := by
      unfold calculateLeaderboard
      rw [(List.mergeSort_perm _ _).length_eq]
      simp
    rcases hL : calculateLeaderboard
        { room with
          status := .completed
          gameData := some { gameData with endedAt := some now } }
        { gameData with endedAt := some now } with _ | ⟨winner, rest⟩
    · rw [hL] at hlen
      exact absurd (List.length_eq_zero.mp hlen.symm) hne
    · refine ⟨winner, rest, rfl, ?_⟩
      simp only [hsid]

/-- Witness for C8 on `wRoom` (open session "sess1", entry fee 5, one
participant): the room completes and the session is closed with the
top-ranked player and a prize of 5 × 2 = 10. -/
theorem C8_endGame_rollup_witness :
    wRoom.gameData = some wGameData ∧
    (endGame wRoom 100).1.status = .completed ∧
    (endGame wRoom 100).2.2 = some
      { sessionId := "sess1", winner := "h", prizeAmount := .num 10 } := by
  have h := C8_endGame_rollup wRoom wGameData 100 rfl
  obtain ⟨w, r, hw, hs⟩ := h.2.2.2 "sess1" rfl (by decide)
  have h21 : (endGame wRoom 100).2.1 =
      List.mergeSort
        [{ username := "Host", walletAddress := "h", score := 0, correctAnswers := 0 },
         { username := "Alice", walletAddress := "a", score := 0, correctAnswers := 0 }]
        (fun a b : RankEntry => b.score ≤ a.score) := by
    rw [endGame_eq wRoom wGameData 100 rfl]
    show calculateLeaderboard _ _ = _
    unfold calculateLeaderboard
    congr 1
  have hval : (endGame wRoom 100).2.1 =
      [{ username := "Host", walletAddress := "h", score := 0, correctAnswers := 0 },
       { username := "Alice", walletAddress := "a", score := 0, correctAnswers := 0 }] :=
    h21.trans (List.mergeSort_of_sorted (by decide))
  rw [hval] at hw
  injection hw with h1 h2
  refine ⟨rfl, h.1, ?_⟩
  rw [hs, ← h1]
  simp only [wRoom, wConfig, jsMul]
  norm_num

/-- Storing a room whose code is fresh makes it findable by that code. -/
theorem findRoomByCode_setA (store : List (String × Room)) (k roomCode : String)
    (r : Room) (hfresh : findRoomByCode store roomCode = none)
    (hcode : r.code = toUpperCase roomCode) :
    findRoomByCode (setA store k r) roomCode = some r := by
  induction store with
  | nil => simp [findRoomByCode, setA, List.find?, hcode]
  | cons hd tl ih =>
      obtain ⟨k', v⟩ := hd
      unfold findRoomByCode at hfresh ⊢
      simp only [List.map_cons, List.find?_cons] at hfresh
      rcases hv : (decide (v.code = toUpperCase roomCode)) with _ | _
      · rw [hv] at hfresh
        unfold setA
        by_cases hk : k' = k
        · rw [if_pos hk]
          simp [List.find?, hcode]
        · rw [if_neg hk]
          simp only [List.map_cons, List.find?_cons, hv]
          exact ih hfresh
      · rw [hv] at hfresh
        exact Option.noConfusion hfresh

/-- **C9.** A room created with config C and stored under a fresh id and
code is returned both by id lookup and by code lookup; its sanitized view
carries exactly C's public config fields (entryFee, asset, maxPlayers,
topic, isPublic) plus a boolean `hasPassword`; and the sanitized view is
independent of the password value: any room agreeing on everything except
the stored password (with the same has-password truthiness) sanitizes to
the identical view. -/
theorem C9_sanitized_roundtrip
    (store : List (String × Room)) (hostData : HostData)
    (cfg : CreateConfigInput) (roomId roomCode : String) (now : Nat)
    (room : Room) (q : Rat)
    (hok : createRoom hostData cfg roomId roomCode now = .ok room)
    (hfee : cfg.entryFee = .num q)
    (hfresh : findRoomByCode store roomCode = none)
    (hupper : toUpperCase roomCode = roomCode) :
    getRoomById (setA store roomId room) roomId = some room ∧
    findRoomByCode (setA store roomId room) roomCode = some room ∧
    (sanitizeRoom room).config.entryFee = .num q ∧
    (sanitizeRoom room).config.asset = cfg.asset ∧
    (sanitizeRoom room).config.maxPlayers = cfg.maxPlayers ∧
    (sanitizeRoom room).config.topic = cfg.topic ∧
    (sanitizeRoom room).config.isPublic = cfg.isPublic ∧
    (∀ room2 : Room,
      room2.id = room.id → room2.code = room.code → room2.host = room.host →
      room2.participants = room.participants → room2.status = room.status →
      room2.createdAt = room.createdAt →
      room2.config.entryFee = room.config.entryFee →
      room2.config.asset = room.config.asset →
      room2.config.maxPlayers = room.config.maxPlayers →
      room2.config.topic = room.config.topic →
      room2.config.isPublic = room.config.isPublic →
      ((room2.config.password.getD "" ≠ "") ↔
        (room.config.password.getD "" ≠ "")) →
      sanitizeRoom room2 = sanitizeRoom room) := by
  have hcode : room.code = toUpperCase roomCode ∧ room.id = roomId ∧
      room.config.entryFee = cfg.entryFee.toParseFloat ∧
      room.config.asset = cfg.asset ∧
      room.config.maxPlayers = cfg.maxPlayers ∧
      room.config.topic = cfg.topic ∧
      room.config.isPublic = cfg.isPublic := by
    unfold createRoom at hok
    split at hok
    · exact Except.noConfusion hok
    · split at hok
      · exact Except.noConfusion hok
      · split at hok
        · exact Except.noConfusion hok
        · split at hok
          · exact Except.noConfusion hok
          · split at hok
            · exact Except.noConfusion hok
            · split at hok
              · exact Except.noConfusion hok
              · injection hok with h'
                subst h'
                exact ⟨hupper.symm, rfl, rfl, rfl, rfl, rfl, rfl⟩
  obtain ⟨hc, hid, he, ha, hm, ht, hp⟩ := hcode
  refine ⟨lookupA_setA_self _ _ _,
    findRoomByCode_setA store roomId roomCode room hfresh hc,
    ?_, ?_, ?_, ?_, ?_, ?_⟩
  · show room.config.entryFee = _
    rw [he, hfee]
    rfl
  · exact ha
  · exact hm
  · exact ht
  · exact hp
  · intro room2 h1 h2 h3 h4 h5 h6 e1 e2 e3 e4 e5 hpw
    unfold sanitizeRoom
    simp only [SanitizedRoom.mk.injEq, SanitizedConfig.mk.injEq, h1, h2, h3,
      h4, h5, h6, e1, e2, e3, e4, e5]
    simp only [and_true, true_and]
    exact decide_eq_decide.mpr hpw

/-- Host data for the C9 witness. -/
def c9Host : HostData := { walletAddress := "hostaddr", username := some "Hosty" }

/-- Create-config for the C9 witness: a private room with password "pw". -/
def c9Cfg : CreateConfigInput :=
  { entryFee := .num 3, asset := "USDC", maxPlayers := 4, topic := "Age",
    password := some "pw", isPublic := false }

/-- The room produced by `createRoom c9Host c9Cfg "room_9" "ABC123" 7`. -/
def c9Room : Room :=
  { id := "room_9"
    code := "ABC123"
    host := { walletAddress := "hostaddr", username := "Hosty", socketId := none }
    config :=
      { entryFee := .num 3, asset := "USDC", maxPlayers := 4, topic := "Age",
        password := some "pw", isPublic := false }
    participants := []
    status := .waiting
    createdAt := 7
    gameData := none
    yellowSession := none }

/-- Witness for C9: the concrete private room round-trips through the
store by id and by code with its public config intact. -/
theorem C9_sanitized_roundtrip_witness :
    createRoom c9Host c9Cfg "room_9" "ABC123" 7 = .ok c9Room ∧
    getRoomById (setA [] "room_9" c9Room) "room_9" = some c9Room ∧
    findRoomByCode (setA [] "room_9" c9Room) "ABC123" = some c9Room ∧
    (sanitizeRoom c9Room).config.entryFee = .num 3 ∧
    (sanitizeRoom c9Room).config.topic = "Age" := by
  have h := C9_sanitized_roundtrip [] c9Host c9Cfg "room_9" "ABC123" 7 c9Room 3
    (by decide) rfl rfl (by decide)
  exact ⟨by decide, h.1, h.2.1, h.2.2.1, h.2.2.2.2.2.1⟩

/-- **C10.** The create-time entry-fee validation rejects only values
whose JS comparisons fall outside [0, 1000]: when `entryFee` is absent
(`undefined`) or a non-numeric string, both `entryFee < 0` and
`entryFee > 1000` are false (NaN comparisons are always false), so —
the other fields being valid — creation succeeds and the stored
`config.entryFee` is NaN (`parseFloat` of the input). -/
theorem C10_nan_entryFee
    (hostData : HostData) (cfg : CreateConfigInput)
    (roomId roomCode : String) (now : Nat)
    (hfee : cfg.entryFee = .undef ∨ cfg.entryFee = .str .nan .nan)
    (hwallet : hostData.walletAddress ≠ "")
    (hasset : cfg.asset ∈ validAssets)
    (hmax : 2 ≤ cfg.maxPlayers ∧ cfg.maxPlayers ≤ 10)
    (htopic : cfg.topic ∈ validTopics)
    (hpub : cfg.isPublic = true) :
    ∃ room, createRoom hostData cfg roomId roomCode now = .ok room ∧
      room.config.entryFee = .nan := by
  have hnum : cfg.entryFee.toNumber = .nan := by
    rcases hfee with h | h <;> rw [h] <;> rfl
  have hpf : cfg.entryFee.toParseFloat = .nan := by
    rcases hfee with h | h <;> rw [h] <;> rfl
  unfold createRoom
  rw [if_neg hwallet, if_neg (by simp [hnum, jsLt]), if_neg (by simpa using hasset),
    if_neg (by omega), if_neg (by simpa using htopic),
    if_neg (by simp [hpub])]
  exact ⟨_, rfl, hpf⟩

/-- Create-config for the C10 witness: `entryFee` left `undefined`. -/
def c10Cfg : CreateConfigInput :=
  { entryFee := .undef, asset := "USDC", maxPlayers := 2, topic := "Age",
    password := none, isPublic := true }

/-- The room produced by creating with `c10Cfg`: its stored fee is NaN. -/
def c10Room : Room :=
  { id := "room_10"
    code := "FEED01"
    host := { walletAddress := "w", username := "n", socketId := none }
    config :=
      { entryFee := .nan, asset := "USDC", maxPlayers := 2, topic := "Age",
        password := none, isPublic := true }
    participants := []
    status := .waiting
    createdAt := 0
    gameData := none
    yellowSession := none }

/-- Witness for C10: creating with an `undefined` entry fee succeeds and
stores NaN. -/
theorem C10_nan_entryFee_witness :
    createRoom ⟨"w", some "n"⟩ c10Cfg "room_10" "FEED01" 0 = .ok c10Room ∧
    c10Room.config.entryFee = .nan := by
  obtain ⟨room, hok, hnan⟩ :=
    C10_nan_entryFee ⟨"w", some "n"⟩ c10Cfg "room_10" "FEED01" 0
      (Or.inl rfl) (by decide) (by decide) (by decide) (by decide) rfl
  have hok' : createRoom ⟨"w", some "n"⟩ c10Cfg "room_10" "FEED01" 0 =
      .ok c10Room := by decide
  have hr : room = c10Room := by
    have h := hok.symm.trans hok'
    injection h
  exact ⟨hok', hr ▸ hnan⟩

end QuizChain
